import Mathlib

/-!
Verification development for the isopod-rs GPU rendering backend.

Each structure and function below is a shallow embedding of the
corresponding Rust item, translated from the repository sources
(file and line references are given in the doc comments).  Machine
integers (`usize`) are modelled as `Nat`; `Vec` as `List`; panics and
unwinding as `Option` (with `none` for the panicking exit); Vulkan
handle types as `Nat` tags.  Theorems at the end of the file settle
the specification claims against these definitions.
-/

namespace Isopod

/-! ### GPU buffer primitive

Embedding of `VKBuffer` from `src/gfx/backend/vulkan/buffer.rs`.
Only the fields relevant to capacity tracking are modelled: `size`
is the byte capacity and `alloc` is an allocation-identity counter
(`VKBuffer::new` hands out a fresh allocation, so replacing `*self`
with a new buffer bumps it; the old allocation is dropped at once).
-/

structure VKBuffer where
  size : Nat
  alloc : Nat
  deriving DecidableEq, Repr

/-- `VKBuffer::new` (buffer.rs lines 17-37): allocates a fresh buffer of
the requested byte size.  The allocation identity is `prevAlloc + 1`,
distinguishing it from the allocation it replaces. -/
def VKBuffer.new (size : Nat) (prevAlloc : Nat) : VKBuffer :=
  { size := size, alloc := prevAlloc + 1 }

/-- `VKBuffer::expand_to_fit` (buffer.rs lines 45-49):
`if self.size < size { *self = VKBuffer::new(&self.ctx, size * 2, ...) }`.
Note the fresh capacity is `size * 2`, i.e. twice the *requested* size. -/
def VKBuffer.expand_to_fit (b : VKBuffer) (size : Nat) : VKBuffer :=
  if b.size < size then VKBuffer.new (size * 2) b.alloc else b

/-- Result of running `VKBuffer::map`: whether the memory is still mapped
when control leaves `map`, and the final buffer contents. -/
structure MapRun where
  mapped : Bool
  mem : List Nat
  deriving DecidableEq, Repr

/-- `VKBuffer::map` (buffer.rs lines 39-43).  The body is
`map_memory; f(slice); unmap_memory` with no drop guard, so the
unmap runs only when `f` returns normally.  The closure `f` is modelled
as returning `none` when it panics (unwinding then leaves `map` with the
memory still mapped) and `some mem'` when it returns normally. -/
def VKBuffer.mapRun (mem : List Nat) (f : List Nat → Option (List Nat)) : MapRun :=
  match f mem with
  | none => { mapped := true, mem := mem }
  | some mem2 => { mapped := false, mem := mem2 }

/-! ### GPU image primitive

Embedding of `VKImage` from `src/gfx/backend/vulkan/image.rs`.
Layouts and access masks are opaque `Nat` codes; only the state
tracked by `change_layout_mem_barrier` is modelled. -/

structure VKImage where
  image : Nat
  layout : Nat
  access_mask : Nat
  deriving DecidableEq, Repr

structure ImageMemoryBarrier where
  image : Nat
  old_layout : Nat
  new_layout : Nat
  src_access_mask : Nat
  dst_access_mask : Nat
  deriving DecidableEq, Repr

/-- `VKImage::change_layout_mem_barrier` (image.rs lines 108-123):
builds a barrier whose source state is the previously stored
layout/access mask and whose destination state is the arguments, then
overwrites the stored state with the arguments.  Returns the barrier
together with the updated image. -/
def VKImage.change_layout_mem_barrier (img : VKImage) (layout : Nat) (access_mask : Nat) :
    ImageMemoryBarrier × VKImage :=
  ({ image := img.image
     old_layout := img.layout
     new_layout := layout
     src_access_mask := img.access_mask
     dst_access_mask := access_mask },
   { img with layout := layout, access_mask := access_mask })

/-! ### Attribute kinds and wire formats

Embeddings of `TextureAttributeID`, `NormalizationID` and
`VertexAttributeID` from `src/gfx/attribute.rs`, of the relevant
`vk::Format` constants, and of the two format tables:
`VKImage::texture_attribute_to_vk_format` (image.rs lines 143-183) and
the vertex table inside `add_vertex_layout_data` (pipeline.rs lines
44-64). -/

inductive TextureAttributeID
  | F32 | Vec2 | Vec4
  | U8 | U8Vec2 | U8Vec4
  | U16 | U16Vec2 | U16Vec4
  | U32
  deriving DecidableEq, Repr

inductive NormalizationID
  | None | Srgb | MinusOneToOne | ZeroToOne
  deriving DecidableEq, Repr

inductive VKFormat
  | R32_SFLOAT | R32G32_SFLOAT | R32G32B32_SFLOAT | R32G32B32A32_SFLOAT
  | R8_UINT | R8_SRGB | R8_SNORM | R8_UNORM
  | R8G8_UINT | R8G8_SRGB | R8G8_SNORM | R8G8_UNORM
  | R8G8B8A8_UINT | R8G8B8A8_SRGB | R8G8B8A8_SNORM | R8G8B8A8_UNORM
  | R16_UINT | R16_SNORM | R16_UNORM
  | R16G16_UINT | R16G16_SNORM | R16G16_UNORM
  | R16G16B16A16_UINT | R16G16B16A16_SNORM | R16G16B16A16_UNORM
  | R32_UINT | R32G32_UINT | R32G32B32A32_UINT
  deriving DecidableEq, Repr

/-- Bit width of one component of a `vk::Format` (read off the format name). -/
def VKFormat.componentBits : VKFormat → Nat
  | .R32_SFLOAT | .R32G32_SFLOAT | .R32G32B32_SFLOAT | .R32G32B32A32_SFLOAT => 32
  | .R8_UINT | .R8_SRGB | .R8_SNORM | .R8_UNORM => 8
  | .R8G8_UINT | .R8G8_SRGB | .R8G8_SNORM | .R8G8_UNORM => 8
  | .R8G8B8A8_UINT | .R8G8B8A8_SRGB | .R8G8B8A8_SNORM | .R8G8B8A8_UNORM => 8
  | .R16_UINT | .R16_SNORM | .R16_UNORM => 16
  | .R16G16_UINT | .R16G16_SNORM | .R16G16_UNORM => 16
  | .R16G16B16A16_UINT | .R16G16B16A16_SNORM | .R16G16B16A16_UNORM => 16
  | .R32_UINT | .R32G32_UINT | .R32G32B32A32_UINT => 32

/-- Number of components of a `vk::Format` (read off the format name). -/
def VKFormat.componentCount : VKFormat → Nat
  | .R32_SFLOAT | .R8_UINT | .R8_SRGB | .R8_SNORM | .R8_UNORM
  | .R16_UINT | .R16_SNORM | .R16_UNORM | .R32_UINT => 1
  | .R32G32_SFLOAT | .R8G8_UINT | .R8G8_SRGB | .R8G8_SNORM | .R8G8_UNORM
  | .R16G16_UINT | .R16G16_SNORM | .R16G16_UNORM | .R32G32_UINT => 2
  | .R32G32B32_SFLOAT => 3
  | .R32G32B32A32_SFLOAT | .R8G8B8A8_UINT | .R8G8B8A8_SRGB | .R8G8B8A8_SNORM
  | .R8G8B8A8_UNORM | .R16G16B16A16_UINT | .R16G16B16A16_SNORM
  | .R16G16B16A16_UNORM | .R32G32B32A32_UINT => 4

/-- `VKImage::texture_attribute_to_vk_format` (image.rs lines 143-183),
including the catch-all `_ => ..._UINT` arms of the `U16` family. -/
def texture_attribute_to_vk_format (attr : TextureAttributeID)
    (normilzation : NormalizationID) : VKFormat :=
  match attr with
  | .F32 => .R32_SFLOAT
  | .Vec2 => .R32G32_SFLOAT
  | .Vec4 => .R32G32B32A32_SFLOAT
  | .U8 =>
    match normilzation with
    | .None => .R8_UINT
    | .Srgb => .R8_SRGB
    | .MinusOneToOne => .R8_SNORM
    | .ZeroToOne => .R8_UNORM
  | .U8Vec2 =>
    match normilzation with
    | .None => .R8G8_UINT
    | .Srgb => .R8G8_SRGB
    | .MinusOneToOne => .R8G8_SNORM
    | .ZeroToOne => .R8G8_UNORM
  | .U8Vec4 =>
    match normilzation with
    | .None => .R8G8B8A8_UINT
    | .Srgb => .R8G8B8A8_SRGB
    | .MinusOneToOne => .R8G8B8A8_SNORM
    | .ZeroToOne => .R8G8B8A8_UNORM
  | .U16 =>
    match normilzation with
    | .MinusOneToOne => .R16_SNORM
    | .ZeroToOne => .R16_UNORM
    | _ => .R16_UINT
  | .U16Vec2 =>
    match normilzation with
    | .MinusOneToOne => .R16G16_SNORM
    | .ZeroToOne => .R16G16_UNORM
    | _ => .R16G16_UINT
  | .U16Vec4 =>
    match normilzation with
    | .MinusOneToOne => .R16G16B16A16_SNORM
    | .ZeroToOne => .R16G16B16A16_UNORM
    | _ => .R16G16B16A16_UINT
  | .U32 => .R32_UINT

/-- The Rust value types for which `TextureAttribute` is implemented in
attribute.rs: a base numeric/vector type, optionally wrapped in
`Normalized<_, N>`. -/
inductive TexBase
  | f32 | vec2 | vec4
  | u8 | u8vec2 | u8vec4
  | u16 | u16vec2 | u16vec4
  | u32
  deriving DecidableEq, Repr

/-- The `(TextureAttributeID, NormalizationID)` pair declared by the
`impl_texture_attr!` / `impl_norm_srgb_texture_attr!` /
`impl_norm_other_texture_attr!` invocations in attribute.rs lines
128-152; `none` where no impl exists for the combination.  Line 151 of
the source reads `impl_texture_attr!(U16Vec4, U8Vec4);`, so the plain
(non-normalized) `U16Vec4` texture attribute is declared with id
`TextureAttributeID::U8Vec4`. -/
def textureAttrIDs : TexBase → NormalizationID →
    Option (TextureAttributeID × NormalizationID)
  | .f32, .None => some (.F32, .None)
  | .vec2, .None => some (.Vec2, .None)
  | .vec4, .None => some (.Vec4, .None)
  | .u32, .None => some (.U32, .None)
  | .u8, .None => some (.U8, .None)
  | .u8, .Srgb => some (.U8, .Srgb)
  | .u8, .ZeroToOne => some (.U8, .ZeroToOne)
  | .u8, .MinusOneToOne => some (.U8, .MinusOneToOne)
  | .u8vec2, .None => some (.U8Vec2, .None)
  | .u8vec2, .Srgb => some (.U8Vec2, .Srgb)
  | .u8vec2, .ZeroToOne => some (.U8Vec2, .ZeroToOne)
  | .u8vec2, .MinusOneToOne => some (.U8Vec2, .MinusOneToOne)
  | .u8vec4, .None => some (.U8Vec4, .None)
  | .u8vec4, .Srgb => some (.U8Vec4, .Srgb)
  | .u8vec4, .ZeroToOne => some (.U8Vec4, .ZeroToOne)
  | .u8vec4, .MinusOneToOne => some (.U8Vec4, .MinusOneToOne)
  | .u16, .None => some (.U16, .None)
  | .u16, .ZeroToOne => some (.U16, .ZeroToOne)
  | .u16, .MinusOneToOne => some (.U16, .MinusOneToOne)
  | .u16vec2, .None => some (.U16Vec2, .None)
  | .u16vec2, .ZeroToOne => some (.U16Vec2, .ZeroToOne)
  | .u16vec2, .MinusOneToOne => some (.U16Vec2, .MinusOneToOne)
  | .u16vec4, .None => some (.U8Vec4, .None)
  | .u16vec4, .ZeroToOne => some (.U16Vec4, .ZeroToOne)
  | .u16vec4, .MinusOneToOne => some (.U16Vec4, .MinusOneToOne)
  | _, _ => none

/-- Component bit width of a `TexBase` Rust type (8, 16 or 32). -/
def TexBase.componentBits : TexBase → Nat
  | .f32 | .vec2 | .vec4 | .u32 => 32
  | .u8 | .u8vec2 | .u8vec4 => 8
  | .u16 | .u16vec2 | .u16vec4 => 16

/-- The wire format a Rust texture-attribute type reaches on the Vulkan
backend: the declared `IDS` pair fed through
`texture_attribute_to_vk_format`. -/
def textureWireFormat (b : TexBase) (n : NormalizationID) : Option VKFormat :=
  (textureAttrIDs b n).map (fun p => texture_attribute_to_vk_format p.1 p.2)

/-- `VertexAttributeID` (attribute.rs lines 156-161). -/
inductive VertexAttributeID
  | F32 | Vec2 | Vec3 | Vec4
  | U8 | U8Vec2 | U8Vec4 | U8UNorm | U8Vec2UNorm | U8Vec4UNorm
  | U16 | U16Vec2 | U16Vec4 | U16UNorm | U16Vec2UNorm | U16Vec4UNorm
  | U32 | U32Vec2 | U32Vec4
  deriving DecidableEq, Repr

/-- The vertex format table inside `add_vertex_layout_data`
(pipeline.rs lines 44-64), format component only. -/
def vertex_attribute_to_vk_format : VertexAttributeID → VKFormat
  | .F32 => .R32_SFLOAT
  | .Vec2 => .R32G32_SFLOAT
  | .Vec3 => .R32G32B32_SFLOAT
  | .Vec4 => .R32G32B32A32_SFLOAT
  | .U8 => .R8_UINT
  | .U8Vec2 => .R8G8_UINT
  | .U8Vec4 => .R8G8B8A8_UINT
  | .U8UNorm => .R8_UNORM
  | .U8Vec2UNorm => .R8G8_UNORM
  | .U8Vec4UNorm => .R8G8B8A8_UNORM
  | .U16 => .R16_UINT
  | .U16Vec2 => .R16G16_UINT
  | .U16Vec4 => .R16G16B16A16_UINT
  | .U16UNorm => .R16_UNORM
  | .U16Vec2UNorm => .R16G16_UNORM
  | .U16Vec4UNorm => .R16G16B16A16_UNORM
  | .U32 => .R32_UINT
  | .U32Vec2 => .R32G32_UINT
  | .U32Vec4 => .R32G32B32A32_UINT

/-! ### Resource registry

Embedding of `IDVec` / `IDArenaCell` from `src/util.rs`.  A stored
`Weak<T>` is modelled by the `Nat` handle of the strong reference it was
downgraded from; whether a handle still has strong holders at a given
`remove_unused` scan is supplied to that scan as the list `dead` of
handles whose strong count is zero.  `free` is a stack: Rust's
`Vec::push` appends at the end and `Vec::pop` removes from the end. -/

structure IDVecSt where
  vec : List (Option Nat)
  free : List Nat
  deriving DecidableEq, Repr

def IDVecSt.empty : IDVecSt := { vec := [], free := [] }

/-- `IDVec::insert` (util.rs lines 112-121): pop a free slot if one
exists (Rust `free.pop()` takes the *last* element), else append.
Returns the new state and the id handed out. -/
def IDVecSt.insert (s : IDVecSt) (h : Nat) : IDVecSt × Nat :=
  match s.free.getLast? with
  | some id => ({ vec := s.vec.set id (some h), free := s.free.dropLast }, id)
  | none => ({ vec := s.vec ++ [some h], free := s.free }, s.vec.length)

/-- The scan loop of `IDArenaCell::remove_unused` (util.rs lines
155-167), processing slots in index order starting at index `base`:
a slot holding a weak reference with zero strong holders (handle in
`dead`) is cleared and its index collected.  Returns the rewritten
slot list and the collected indices (in increasing order, as the Rust
loop pushes them). -/
def removeUnusedScan : List (Option Nat) → List Nat → Nat → List (Option Nat) × List Nat
  | [], _, _ => ([], [])
  | none :: rest, dead, base =>
    let r := removeUnusedScan rest dead (base + 1)
    (none :: r.1, r.2)
  | some h :: rest, dead, base =>
    let r := removeUnusedScan rest dead (base + 1)
    if h ∈ dead then (none :: r.1, base :: r.2) else (some h :: r.1, r.2)

/-- `IDArenaCell::remove_unused` (util.rs lines 155-167): scan every
slot, clear the dead ones, push their indices on the free stack (in
increasing index order) and return them. -/
def IDVecSt.remove_unused (s : IDVecSt) (dead : List Nat) : IDVecSt × List Nat :=
  let r := removeUnusedScan s.vec dead 0
  ({ vec := r.1, free := s.free ++ r.2 }, r.2)

/-- One operation of a registry session: a `register_*`/`create_*` call
(which calls `IDVec::insert` with a fresh weak reference to handle `h`)
or the per-frame-start `remove_unused` scan with `dead` the handles
whose strong count is zero at that scan. -/
inductive RegOp
  | insert (h : Nat)
  | removeUnused (dead : List Nat)
  deriving DecidableEq, Repr

/-- Observable result of one registry operation. -/
inductive RegEvent
  | inserted (id : Nat)
  | removed (ids : List Nat)
  deriving DecidableEq, Repr

/-- Run a registry session from state `s`, returning the final state and
the event produced by each operation, in order. -/
def runRegOps (s : IDVecSt) : List RegOp → IDVecSt × List RegEvent
  | [] => (s, [])
  | .insert h :: ops =>
    let r := s.insert h
    let rest := runRegOps r.1 ops
    (rest.1, .inserted r.2 :: rest.2)
  | .removeUnused dead :: ops =>
    let r := s.remove_unused dead
    let rest := runRegOps r.1 ops
    (rest.1, .removed r.2 :: rest.2)

/-- The events of a session started from the empty registry of one
category (as held in `GfxResources`, gfx/mod.rs lines 57-66). -/
def regEvents (ops : List RegOp) : List RegEvent :=
  (runRegOps IDVecSt.empty ops).2

/-! ### Draw-command log producer

Embedding of the high-level drawing API: `DrawCmd` (gfx/draw.rs lines
11-16), `GfxFrameData` (gfx/mod.rs lines 31-40), `ShaderCfg::draw`
(gfx/draw.rs lines 28-49), `GfxCtx::set_canvas` (gfx/mod.rs lines
250-253) and `GfxCtx::register_shader` (gfx/mod.rs lines 98-106). -/

def ID_NONE : Nat := 2 ^ 64 - 1

def MAX_MATERIALS : Nat := 4

inductive CanvasID
  | Screen
  | Framebuffer (id : Nat)
  deriving DecidableEq, Repr

/-- `DrawCmd` (gfx/draw.rs lines 11-16).  A `SetMaterial` entry carries
the material attribute references (not the `MaterialCfg` id, which is
only used for deduplication by the producer); `DrawMesh` is reduced to
the indexed/non-indexed distinction, the only part the replay claims
depend on. -/
inductive DrawCmd
  | SetCanvas (id : CanvasID) (clear_color : Bool)
  | SetShader (id : Nat)
  | SetMaterial (attributes : List Nat) (slot : Nat)
  | DrawMesh (indexed : Bool)
  deriving DecidableEq, Repr

/-- `MaterialInner` (gfx/material.rs lines 72-76): the per-frame unique
id produced by `GfxCtx::material_cfg` plus the attribute references. -/
structure MaterialCfg where
  id : Nat
  attributes : List Nat
  deriving DecidableEq, Repr

/-- The part of `GfxFrameData` (gfx/mod.rs lines 31-40) driving the
draw-command log: the dedup state and the log itself.
`current_material_ids` has length `MAX_MATERIALS`. -/
structure FrameData where
  current_pipeline : Nat
  current_material_ids : List Nat
  draw_cmd_queue : List DrawCmd
  deriving DecidableEq, Repr

/-- `GfxFrameData::reset` outcome for these fields (gfx/mod.rs lines
43-54): empty log, `current_pipeline = ID_NONE`, every
`current_material_ids` entry `ID_NONE`. -/
def FrameData.reset : FrameData :=
  { current_pipeline := ID_NONE
    current_material_ids := List.replicate MAX_MATERIALS ID_NONE
    draw_cmd_queue := [] }

/-- The material loop of `ShaderCfg::draw` (gfx/draw.rs lines 35-40):
for each `(slot, material)` in order, if
`current_material_ids[slot] != material.id` push a `SetMaterial` entry
and record the id. -/
def drawMaterialsLoop (fd : FrameData) : List (Nat × MaterialCfg) → FrameData
  | [] => fd
  | (slot, m) :: rest =>
    if fd.current_material_ids.getD slot ID_NONE ≠ m.id then
      drawMaterialsLoop
        { fd with
          draw_cmd_queue := fd.draw_cmd_queue ++ [.SetMaterial m.attributes slot]
          current_material_ids := fd.current_material_ids.set slot m.id }
        rest
    else drawMaterialsLoop fd rest

/-- `ShaderCfg::draw` (gfx/draw.rs lines 28-49): append `SetShader` if
the shader differs from `current_pipeline`, run the material loop, then
panic (`none`) when `size_of::<Push>() > 128`, else append `DrawMesh`.
`pushSize` is `std::mem::size_of::<Push>()`. -/
def ShaderCfg.draw (fd : FrameData) (shader : Nat) (materials : List MaterialCfg)
    (pushSize : Nat) (indexed : Bool) : Option FrameData :=
  let fd1 :=
    if fd.current_pipeline ≠ shader then
      { fd with
        current_pipeline := shader
        draw_cmd_queue := fd.draw_cmd_queue ++ [.SetShader shader] }
    else fd
  let fd2 := drawMaterialsLoop fd1 materials.enum
  if pushSize > 128 then none
  else some { fd2 with draw_cmd_queue := fd2.draw_cmd_queue ++ [.DrawMesh indexed] }

/-- `GfxCtx::set_canvas` (gfx/mod.rs lines 250-253): push a `SetCanvas`
entry and reset `current_pipeline` to `ID_NONE`. -/
def GfxCtx.set_canvas (fd : FrameData) (canvas : CanvasID) (clear_color : Bool) : FrameData :=
  { fd with
    draw_cmd_queue := fd.draw_cmd_queue ++ [.SetCanvas canvas clear_color]
    current_pipeline := ID_NONE }

/-- A resource update as enqueued by `register_*` calls
(gfx/resource.rs); only the shader variant is needed here, with the
shader definition reduced to the push-constant layout size. -/
inductive ResourceUpdate
  | CreateShader (id : Nat) (pushLayoutSize : Nat)
  deriving DecidableEq, Repr

/-- `GfxCtx::register_shader` (gfx/mod.rs lines 98-106): build the full
definition (`ShaderFullDefinition::from_partial`, gfx/shader.rs lines
38-48, which records the layouts and performs no validation), insert a
weak reference into the shader registry and enqueue a `CreateShader`
update.  The `Option` result is the panic channel: the body contains no
size check, so the call is `some` for every push-constant layout
size. -/
def GfxCtx.register_shader (shaders : IDVecSt) (updates : List ResourceUpdate)
    (pushSize : Nat) (handle : Nat) :
    Option (IDVecSt × List ResourceUpdate × Nat) :=
  let r := shaders.insert handle
  some (r.1, updates ++ [.CreateShader r.2 pushSize], r.2)

/-! ### Draw-command replay

Embedding of STEP 6 of `VulkanGfxBackend::render`
(src/gfx/backend/vulkan/render.rs lines 443-641): the state machine
that walks the log and emits native calls.  Native calls irrelevant to
the claims (viewport/scissor, push constants, barriers, pass begin/end)
are still emitted so the control flow matches the source. -/

inductive NativeCall
  | cmdEndRendering
  | cmdPipelineBarrier
  | cmdBeginRendering (canvas : CanvasID) (clear : Bool)
  | cmdSetViewport
  | cmdSetScissor
  | cmdBindPipeline (shader : Nat)
  | cmdBindDescriptorSets (slot : Nat)
  | cmdPushConstants
  | cmdBindVertexBuffers
  | cmdBindIndexBuffer
  | cmdDraw
  | cmdDrawIndexed
  deriving DecidableEq, Repr

/-- Replay state (render.rs lines 443-445): the bound canvas and the
current pipeline id (initialized from the first registered pipeline;
only its identity matters here). -/
structure ReplaySt where
  current_target : Option CanvasID
  current_pipeline : Nat
  deriving DecidableEq, Repr

/-- The `SetCanvas` arm (render.rs lines 449-535).  `swapchain` tells
whether `swapchain_draw_data` is `Some` this frame; a `Framebuffer`
target is always available (the registry lookup is an `unwrap`). -/
def replaySetCanvas (swapchain : Bool) (st : ReplaySt) (id : CanvasID) (clear : Bool) :
    ReplaySt × List NativeCall :=
  if st.current_target ≠ some id then
    let endCalls := if st.current_target.isSome then [NativeCall.cmdEndRendering] else []
    let backBarrier :=
      match st.current_target with
      | some (CanvasID.Framebuffer _) => [NativeCall.cmdPipelineBarrier]
      | _ => []
    let avail :=
      match id with
      | CanvasID.Screen => (swapchain, ([] : List NativeCall))
      | CanvasID.Framebuffer _ => (true, [NativeCall.cmdPipelineBarrier])
    if avail.1 then
      ({ st with current_target := some id },
       endCalls ++ backBarrier ++ avail.2 ++
         [NativeCall.cmdBeginRendering id clear, NativeCall.cmdSetViewport,
          NativeCall.cmdSetScissor])
    else (st, endCalls ++ backBarrier)
  else (st, [])

/-- One step of the replay loop (render.rs lines 448-620).  Every arm
other than `SetCanvas` is guarded by `current_target.is_some()` and
performs no deduplication: `SetShader` always binds a pipeline,
`SetMaterial` always binds the next descriptor set, `DrawMesh` always
pushes constants, binds vertex buffers and draws. -/
def replayStep (swapchain : Bool) (st : ReplaySt) : DrawCmd → ReplaySt × List NativeCall
  | .SetCanvas id clear => replaySetCanvas swapchain st id clear
  | .SetShader id =>
    if st.current_target.isSome then
      ({ st with current_pipeline := id }, [NativeCall.cmdBindPipeline id])
    else (st, [])
  | .SetMaterial _ slot =>
    if st.current_target.isSome then
      (st, [NativeCall.cmdBindDescriptorSets slot])
    else (st, [])
  | .DrawMesh indexed =>
    if st.current_target.isSome then
      (st,
       [NativeCall.cmdPushConstants, NativeCall.cmdBindVertexBuffers] ++
         (if indexed then [NativeCall.cmdBindIndexBuffer, NativeCall.cmdDrawIndexed]
          else [NativeCall.cmdDraw]))
    else (st, [])

def replayLoop (swapchain : Bool) (st : ReplaySt) : List DrawCmd → ReplaySt × List NativeCall
  | [] => (st, [])
  | c :: cs =>
    let r := replayStep swapchain st c
    let rest := replayLoop swapchain r.1 cs
    (rest.1, r.2 ++ rest.2)

/-- Full replay of a log (render.rs lines 443-641): the loop, then the
trailing `cmd_end_rendering` and shader-read barrier when a pass is
still open.  Replay starts with no bound canvas. -/
def replay (swapchain : Bool) (cmds : List DrawCmd) : List NativeCall :=
  let r := replayLoop swapchain { current_target := none, current_pipeline := 0 } cmds
  r.2 ++
    (if r.1.current_target.isSome then [NativeCall.cmdEndRendering] else []) ++
    (match r.1.current_target with
     | some (CanvasID.Framebuffer _) => [NativeCall.cmdPipelineBarrier]
     | _ => [])

def isBindPipeline : NativeCall → Bool
  | .cmdBindPipeline _ => true
  | _ => false

def isBindDescriptorSets : NativeCall → Bool
  | .cmdBindDescriptorSets _ => true
  | _ => false

def isDrawCall : NativeCall → Bool
  | .cmdDraw => true
  | .cmdDrawIndexed => true
  | _ => false

/-! ### Per-frame orchestration and the destroy queue

Embedding of the frame-lifecycle skeleton of
`VulkanGfxBackend::render` (src/gfx/backend/vulkan/render.rs), reduced
to the events the deferred-destruction claim is about:

* line 64: `wait_for_fences(cfr.resources_usable)` — wait on the fence
  of the current parity's `FrameResources` (last signaled by the
  submission two frames earlier);
* line 69: `self.destroy_queue.clear()` — drop every object in the
  single backend-wide destroy queue;
* lines 191-201: each `ResourceUpdate::Free` drained this frame pushes
  the removed GPU object onto the destroy queue;
* line 669: `queue_submit(..., cfr.resources_usable)` — submit, to
  signal this parity's fence on completion;
* line 681: `self.even_frame = !self.even_frame`.

Freed objects are `Nat` tags; a frame's schedule is the list of objects
its update drain frees. -/

inductive FrameEvent
  | waitFence (parity : Bool)
  | destroyObjs (objs : List Nat)
  | freeObj (o : Nat)
  | submitFrame (parity : Bool)
  deriving DecidableEq, Repr

/-- Backend state across frames: the parity flag and the destroy queue
(`VulkanGfxBackend::even_frame` and `destroy_queue`). -/
structure BackendSt where
  even_frame : Bool
  destroy_queue : List Nat
  deriving DecidableEq, Repr

/-- Initial backend state (`even_frame: false`, empty queue;
src/gfx/backend/vulkan/mod.rs line 130). -/
def BackendSt.start : BackendSt := { even_frame := false, destroy_queue := [] }

/-- One call of `VulkanGfxBackend::render`: wait on this parity's fence,
clear (destroy) the queued objects, drain the update queue (each `Free`
pushing onto the destroy queue), submit signaling this parity's fence,
flip the parity.  Returns the new state and the frame's event list. -/
def renderFrame (s : BackendSt) (freed : List Nat) : BackendSt × List FrameEvent :=
  ({ even_frame := !s.even_frame, destroy_queue := freed },
   [FrameEvent.waitFence s.even_frame, FrameEvent.destroyObjs s.destroy_queue] ++
     freed.map FrameEvent.freeObj ++ [FrameEvent.submitFrame s.even_frame])

/-- Run the render loop over a schedule of per-frame free lists,
returning one event block per frame. -/
def runFrames (s : BackendSt) : List (List Nat) → List (List FrameEvent)
  | [] => []
  | freed :: rest =>
    let r := renderFrame s freed
    r.2 :: runFrames r.1 rest

/-- The flat event trace of a run. -/
def frameTrace (s : BackendSt) (schedule : List (List Nat)) : List FrameEvent :=
  (runFrames s schedule).flatten

/-! ## Theorems -/

/-- Requests at or below the current capacity leave the buffer
untouched (`self.size < size` is false). -/
theorem VKBuffer.expand_to_fit_le (b : VKBuffer) (m : Nat) (hm : m ≤ b.size) :
    b.expand_to_fit m = b := by
  simp [VKBuffer.expand_to_fit, Nat.not_lt.mpr hm]

/-- C2 (counterexample): with capacity 10, `expand_to_fit(11)` allocates
`11 * 2 = 22` bytes, not `max(11, 10 * 2) = 20` as the claim states. -/
theorem expand_to_fit_not_max_counterexample :
    (VKBuffer.expand_to_fit ⟨10, 0⟩ 11).size = 22 ∧
    max 11 (10 * 2) = 20 ∧
    (VKBuffer.expand_to_fit ⟨10, 0⟩ 11).size ≠ max 11 (10 * 2) := by
  decide

/-- C2 (amended): `expand_to_fit(n)` leaves the buffer unchanged when
`n ≤ capacity`, and when `n > capacity` replaces the allocation with a
fresh one of capacity exactly `n * 2`. -/
theorem expand_to_fit_correct (b : VKBuffer) (n : Nat) :
    (n ≤ b.size → b.expand_to_fit n = b) ∧
    (b.size < n →
      (b.expand_to_fit n).size = n * 2 ∧ (b.expand_to_fit n).alloc = b.alloc + 1) := by
  constructor
  · intro h
    simp [VKBuffer.expand_to_fit, Nat.not_lt.mpr h]
  · intro h
    simp [VKBuffer.expand_to_fit, VKBuffer.new, h]

/-- C2 (witness): the amended statement evaluated at capacity 10 with
request 11 (grow) and at capacity 3 with request 2 (no-op). -/
theorem expand_to_fit_correct_witness :
    ((VKBuffer.expand_to_fit ⟨10, 0⟩ 11).size = 11 * 2 ∧
      (VKBuffer.expand_to_fit ⟨10, 0⟩ 11).alloc = 0 + 1) ∧
    VKBuffer.expand_to_fit ⟨3, 5⟩ 2 = ⟨3, 5⟩ :=
  ⟨(expand_to_fit_correct ⟨10, 0⟩ 11).2 (by decide),
   (expand_to_fit_correct ⟨3, 5⟩ 2).1 (by decide)⟩

/-- C9: `expand_to_fit(n)` leaves capacity at least `n` and never
shrinks it, and a further `expand_to_fit(m)` with `m` at most the
resulting capacity is a complete no-op, so capacity is monotonically
non-decreasing across any sequence of `expand_to_fit` calls. -/
theorem expand_to_fit_monotone (b : VKBuffer) (n : Nat) :
    n ≤ (b.expand_to_fit n).size ∧
    b.size ≤ (b.expand_to_fit n).size ∧
    (∀ m, m ≤ (b.expand_to_fit n).size →
      (b.expand_to_fit n).expand_to_fit m = b.expand_to_fit n) := by
  refine ⟨?_, ?_, ?_⟩
  · unfold VKBuffer.expand_to_fit VKBuffer.new
    split
    · simp only
      omega
    · next h => exact Nat.le_of_not_lt h
  · unfold VKBuffer.expand_to_fit VKBuffer.new
    split
    · next h =>
      simp only
      omega
    · exact Nat.le_refl _
  · intro m hm
    exact VKBuffer.expand_to_fit_le _ m hm

/-- C9 (witness): the monotonicity statement evaluated at capacity 10
with request 11, then re-requesting 22. -/
theorem expand_to_fit_monotone_witness :
    11 ≤ (VKBuffer.expand_to_fit ⟨10, 0⟩ 11).size ∧
    (VKBuffer.expand_to_fit ⟨10, 0⟩ 11).expand_to_fit 22 =
      VKBuffer.expand_to_fit ⟨10, 0⟩ 11 :=
  ⟨(expand_to_fit_monotone ⟨10, 0⟩ 11).1,
   (expand_to_fit_monotone ⟨10, 0⟩ 11).2.2 22 (by decide)⟩

/-- C5 (counterexample): when the closure passed to `VKBuffer::map`
panics, control leaves `map` with the memory still mapped — there is no
drop guard on the mapped pointer. -/
theorem map_panic_leaves_mapped_counterexample :
    (VKBuffer.mapRun [1, 2] (fun _ => none)).mapped = true := by
  decide

/-- C5 (amended): on every normal return of the closure, `VKBuffer::map`
unmaps the memory before returning; only the panic exit path leaves it
mapped. -/
theorem map_unmaps_on_normal_return (mem : List Nat)
    (f : List Nat → Option (List Nat)) (r : List Nat) (h : f mem = some r) :
    VKBuffer.mapRun mem f = { mapped := false, mem := r } := by
  simp [VKBuffer.mapRun, h]

/-- C5 (witness): the amended statement evaluated on a closure that
prepends a byte and returns normally. -/
theorem map_unmaps_on_normal_return_witness :
    VKBuffer.mapRun [1] (fun m => some (2 :: m)) = { mapped := false, mem := [2, 1] } :=
  map_unmaps_on_normal_return [1] (fun m => some (2 :: m)) [2, 1] rfl

/-- C7: `change_layout_mem_barrier(new_layout, new_access)` returns a
barrier whose source layout/access are the previously stored state and
whose destination layout/access are the arguments, and afterwards the
stored state equals the arguments. -/
theorem change_layout_mem_barrier_spec (img : VKImage) (layout access_mask : Nat) :
    (img.change_layout_mem_barrier layout access_mask).1.old_layout = img.layout ∧
    (img.change_layout_mem_barrier layout access_mask).1.src_access_mask = img.access_mask ∧
    (img.change_layout_mem_barrier layout access_mask).1.new_layout = layout ∧
    (img.change_layout_mem_barrier layout access_mask).1.dst_access_mask = access_mask ∧
    (img.change_layout_mem_barrier layout access_mask).1.image = img.image ∧
    (img.change_layout_mem_barrier layout access_mask).2.layout = layout ∧
    (img.change_layout_mem_barrier layout access_mask).2.access_mask = access_mask := by
  simp [VKImage.change_layout_mem_barrier]

/-- C4: evaluation of the texture wire-format mapping at the failing
input.  The non-normalized `U16Vec4` texture attribute is declared with
id `TextureAttributeID::U8Vec4` (attribute.rs line 151), so it reaches
the 4x8-bit format `R8G8B8A8_UINT` instead of the 4x16-bit
`R16G16B16A16_UINT` the fixed table requires; the neighbouring
normalized `U16Vec4` entries and the vertex-attribute side map to
16-bit formats as the table states. -/
theorem u16vec4_texture_wire_format_bug :
    textureWireFormat TexBase.u16vec4 NormalizationID.None = some VKFormat.R8G8B8A8_UINT ∧
    (textureWireFormat TexBase.u16vec4 NormalizationID.None).map VKFormat.componentBits = some 8 ∧
    TexBase.componentBits TexBase.u16vec4 = 16 ∧
    textureWireFormat TexBase.u16vec4 NormalizationID.None ≠ some VKFormat.R16G16B16A16_UINT ∧
    textureWireFormat TexBase.u16vec4 NormalizationID.ZeroToOne = some VKFormat.R16G16B16A16_UNORM ∧
    textureWireFormat TexBase.u16vec4 NormalizationID.MinusOneToOne = some VKFormat.R16G16B16A16_SNORM ∧
    vertex_attribute_to_vk_format VertexAttributeID.U16Vec4 = VKFormat.R16G16B16A16_UINT := by
  decide

/-- C6 (counterexample): registering a shader whose push-constant
payload is 132 bytes succeeds (`register_shader` performs no size
check), while the first draw call with that payload type panics — the
failure is raised at draw time, not at registration time as the claim
states. -/
theorem oversized_push_registers_fine_counterexample :
    (GfxCtx.register_shader IDVecSt.empty [] 132 0).isSome = true ∧
    ShaderCfg.draw FrameData.reset 1 [] 132 false = none := by
  decide

/-- C6 (amended): the 128-byte push-constant limit is enforced inside
`ShaderCfg::draw`, which panics for every payload size above 128, while
`register_shader` accepts any payload size without failing. -/
theorem push_limit_enforced_at_draw (fd : FrameData) (shader : Nat)
    (materials : List MaterialCfg) (pushSize : Nat) (ix : Bool)
    (shaders : IDVecSt) (updates : List ResourceUpdate) (handle : Nat)
    (h : 128 < pushSize) :
    ShaderCfg.draw fd shader materials pushSize ix = none ∧
    (GfxCtx.register_shader shaders updates pushSize handle).isSome = true := by
  constructor
  · simp [ShaderCfg.draw, h]
  · simp [GfxCtx.register_shader]

/-- C6 (witness): the amended statement evaluated at a 132-byte
payload. -/
theorem push_limit_enforced_at_draw_witness :
    ShaderCfg.draw FrameData.reset 7 [] 132 true = none ∧
    (GfxCtx.register_shader IDVecSt.empty [] 132 3).isSome = true :=
  push_limit_enforced_at_draw FrameData.reset 7 [] 132 true IDVecSt.empty [] 3 (by decide)

/-! ### C1: deferred destruction timing -/

/-- A three-frame run in which object 5 is freed during frame 0's
update drain. -/
def c1Trace : List FrameEvent := frameTrace BackendSt.start [[5], [], []]

/-- C1 (counterexample): object 5 is freed during frame 0's drain
(trace position 2) and frame 0's fence is signaled by its submission at
position 3 (parity `false`); the object is destroyed by the
`destroy_queue.clear()` of frame 1 at position 5, yet no wait on frame
0's fence (a `waitFence false` event) occurs between the submission and
the destruction — frame 1 waits on the *other* parity's fence.  So the
object is destroyed before frame N's own fence has been waited on,
refuting the claim. -/
theorem destroyed_before_own_fence_wait_counterexample :
    c1Trace.get? 2 = some (FrameEvent.freeObj 5) ∧
    c1Trace.get? 3 = some (FrameEvent.submitFrame false) ∧
    c1Trace.get? 5 = some (FrameEvent.destroyObjs [5]) ∧
    (∀ k, k < 5 → 3 < k → c1Trace.get? k ≠ some (FrameEvent.waitFence false)) := by
  decide

/-- C1 (amended): every object freed during frame N's update drain is
destroyed at the start of frame N+1, immediately after frame N+1 waits
on the fence of the *opposite* parity (the fence signaled by frame
N−1's submission), not after a wait on frame N's own fence: frame N's
block ends with `submitFrame !p` while the destruction of its freed
objects sits directly after `waitFence p` in frame N+1's block. -/
theorem freed_destroyed_next_frame_other_parity
    (s : BackendSt) (schedule : List (List Nat)) (N : Nat)
    (freedN freedN1 : List Nat)
    (hN : schedule.get? N = some freedN)
    (hN1 : schedule.get? (N + 1) = some freedN1) :
    ∃ p : Bool, ∃ q : List Nat,
      (runFrames s schedule).get? N =
        some ([FrameEvent.waitFence (!p), FrameEvent.destroyObjs q] ++
          freedN.map FrameEvent.freeObj ++ [FrameEvent.submitFrame (!p)]) ∧
      (runFrames s schedule).get? (N + 1) =
        some ([FrameEvent.waitFence p, FrameEvent.destroyObjs freedN] ++
          freedN1.map FrameEvent.freeObj ++ [FrameEvent.submitFrame p]) := by
  induction schedule generalizing s N with
  | nil => simp at hN
  | cons f0 rest ih =>
    cases N with
    | zero =>
      simp only [List.get?_cons_zero, Option.some.injEq] at hN
      cases rest with
      | nil => simp at hN1
      | cons f1 rest2 =>
        simp only [List.get?_cons_succ, List.get?_cons_zero,
          Option.some.injEq] at hN1
        refine ⟨!s.even_frame, s.destroy_queue, ?_, ?_⟩
        · simp [runFrames, renderFrame, hN, Bool.not_not]
        · simp [runFrames, renderFrame, hN, hN1]
    | succ N' =>
      simp only [List.get?_cons_succ] at hN hN1
      have h := ih (renderFrame s f0).1 N' hN hN1
      simpa [runFrames] using h

/-- C1 (witness): the amended statement evaluated on a two-frame run
freeing object 5 in frame 0. -/
theorem freed_destroyed_next_frame_other_parity_witness :
    ∃ p : Bool, ∃ q : List Nat,
      (runFrames BackendSt.start [[5], []]).get? 0 =
        some ([FrameEvent.waitFence (!p), FrameEvent.destroyObjs q] ++
          [5].map FrameEvent.freeObj ++ [FrameEvent.submitFrame (!p)]) ∧
      (runFrames BackendSt.start [[5], []]).get? 1 =
        some ([FrameEvent.waitFence p, FrameEvent.destroyObjs [5]] ++
          ([] : List Nat).map FrameEvent.freeObj ++ [FrameEvent.submitFrame p]) :=
  freed_destroyed_next_frame_other_parity BackendSt.start [[5], []] 0 [5] []
    (by decide) (by decide)

/-! ### C3: state deduplication -/

/-- The draw-command log quoted by the claim:
`SetShader(1), SetMaterial(slot=0, id=5), SetMaterial(slot=0, id=5),
DrawMesh(...)` (the `SetMaterial` entries carrying the attribute list of
material 5). -/
def c3ClaimLog : List DrawCmd :=
  [DrawCmd.SetShader 1, DrawCmd.SetMaterial [5] 0, DrawCmd.SetMaterial [5] 0,
   DrawCmd.DrawMesh false]

/-- C3 (counterexample): replaying the quoted log does not emit exactly
one bind-pipeline, one bind-descriptor-set and one draw.  Without a
preceding `SetCanvas` no canvas is bound, so replay emits zero of each;
and even under an open canvas the replay loop performs no
deduplication, emitting *two* bind-descriptor-set calls for the two
`SetMaterial` entries. -/
theorem replay_claim_log_counterexample :
    ¬ ((replay true c3ClaimLog).countP isBindPipeline = 1 ∧
       (replay true c3ClaimLog).countP isBindDescriptorSets = 1 ∧
       (replay true c3ClaimLog).countP isDrawCall = 1) ∧
    (replay true c3ClaimLog).countP isBindPipeline = 0 ∧
    (replay true c3ClaimLog).countP isBindDescriptorSets = 0 ∧
    (replay true c3ClaimLog).countP isDrawCall = 0 ∧
    (replay true (DrawCmd.SetCanvas (CanvasID.Framebuffer 0) true :: c3ClaimLog)).countP
        isBindDescriptorSets = 2 := by
  decide

/-- The material configuration used in the amended C3 scenario:
per-frame material id 5 with attribute reference 7. -/
def c3Material : MaterialCfg := { id := 5, attributes := [7] }

/-- C3 (amended): the deduplication happens at log construction, not at
replay.  Starting from a reset frame, after `set_canvas` a first
`ShaderCfg::draw` with shader 1 and material 5 appends
`SetShader(1), SetMaterial(slot 0), DrawMesh`; a second identical draw
appends only another `DrawMesh` — the duplicate `SetMaterial` never
enters the log because the bound id is unchanged.  Replaying the log of
the single draw emits exactly one bind-pipeline, one
bind-descriptor-set and one draw call. -/
theorem dedup_at_log_construction :
    (ShaderCfg.draw (GfxCtx.set_canvas FrameData.reset (CanvasID.Framebuffer 0) true)
        1 [c3Material] 0 false).map FrameData.draw_cmd_queue =
      some [DrawCmd.SetCanvas (CanvasID.Framebuffer 0) true, DrawCmd.SetShader 1,
        DrawCmd.SetMaterial [7] 0, DrawCmd.DrawMesh false] ∧
    ((ShaderCfg.draw (GfxCtx.set_canvas FrameData.reset (CanvasID.Framebuffer 0) true)
        1 [c3Material] 0 false).bind
      (fun fd => ShaderCfg.draw fd 1 [c3Material] 0 false)).map FrameData.draw_cmd_queue =
      some [DrawCmd.SetCanvas (CanvasID.Framebuffer 0) true, DrawCmd.SetShader 1,
        DrawCmd.SetMaterial [7] 0, DrawCmd.DrawMesh false, DrawCmd.DrawMesh false] ∧
    (replay true [DrawCmd.SetCanvas (CanvasID.Framebuffer 0) true, DrawCmd.SetShader 1,
        DrawCmd.SetMaterial [7] 0, DrawCmd.DrawMesh false]).countP isBindPipeline = 1 ∧
    (replay true [DrawCmd.SetCanvas (CanvasID.Framebuffer 0) true, DrawCmd.SetShader 1,
        DrawCmd.SetMaterial [7] 0, DrawCmd.DrawMesh false]).countP isBindDescriptorSets = 1 ∧
    (replay true [DrawCmd.SetCanvas (CanvasID.Framebuffer 0) true, DrawCmd.SetShader 1,
        DrawCmd.SetMaterial [7] 0, DrawCmd.DrawMesh false]).countP isDrawCall = 1 := by
  decide

/-! ### C10: canvas switch forces a pipeline rebind -/

/-- The material loop of `ShaderCfg::draw` only ever appends to the
draw-command log. -/
theorem drawMaterialsLoop_queue_append (ms : List (Nat × MaterialCfg)) (fd : FrameData) :
    ∃ t, (drawMaterialsLoop fd ms).draw_cmd_queue = fd.draw_cmd_queue ++ t := by
  induction ms generalizing fd with
  | nil => exact ⟨[], by simp [drawMaterialsLoop]⟩
  | cons p rest ih =>
    obtain ⟨slot, m⟩ := p
    by_cases h : fd.current_material_ids.getD slot ID_NONE = m.id
    · obtain ⟨t, ht⟩ := ih fd
      refine ⟨t, ?_⟩
      rw [drawMaterialsLoop, if_neg (fun hn => hn h), ht]
    · obtain ⟨t, ht⟩ := ih
        { fd with
          draw_cmd_queue := fd.draw_cmd_queue ++ [.SetMaterial m.attributes slot]
          current_material_ids := fd.current_material_ids.set slot m.id }
      refine ⟨DrawCmd.SetMaterial m.attributes slot :: t, ?_⟩
      rw [drawMaterialsLoop, if_pos h, ht]
      simp

/-- C10: `set_canvas` resets the frame's `current_pipeline` to the
`ID_NONE` sentinel, so the next `ShaderCfg::draw` (with any valid
shader id and a push payload within the limit) starts by appending a
`SetShader` entry to the log — even if the same shader was current
before the canvas switch — guaranteeing replay rebinds a pipeline
variant for the new canvas. -/
theorem set_canvas_resets_pipeline (fd : FrameData) (canvas : CanvasID) (cc : Bool)
    (shader : Nat) (materials : List MaterialCfg) (pushSize : Nat) (ix : Bool)
    (hs : shader ≠ ID_NONE) (hp : pushSize ≤ 128) :
    (GfxCtx.set_canvas fd canvas cc).current_pipeline = ID_NONE ∧
    ∃ fd2 t,
      ShaderCfg.draw (GfxCtx.set_canvas fd canvas cc) shader materials pushSize ix =
        some fd2 ∧
      fd2.draw_cmd_queue =
        fd.draw_cmd_queue ++ [DrawCmd.SetCanvas canvas cc, DrawCmd.SetShader shader] ++ t := by
  refine ⟨rfl, ?_⟩
  have hne : ID_NONE ≠ shader := fun h => hs h.symm
  set fd1 : FrameData :=
    { current_pipeline := shader
      current_material_ids := fd.current_material_ids
      draw_cmd_queue :=
        (fd.draw_cmd_queue ++ [DrawCmd.SetCanvas canvas cc]) ++ [DrawCmd.SetShader shader] }
    with hfd1
  obtain ⟨t, ht⟩ := drawMaterialsLoop_queue_append materials.enum fd1
  have hdraw : ShaderCfg.draw (GfxCtx.set_canvas fd canvas cc) shader materials pushSize ix =
      some { drawMaterialsLoop fd1 materials.enum with
             draw_cmd_queue :=
               (drawMaterialsLoop fd1 materials.enum).draw_cmd_queue ++
                 [DrawCmd.DrawMesh ix] } := by
    simp only [ShaderCfg.draw, GfxCtx.set_canvas]
    rw [if_pos hne, if_neg (by omega)]
  refine ⟨_, t ++ [DrawCmd.DrawMesh ix], hdraw, ?_⟩
  simp only
  rw [ht, hfd1]
  simp

/-- C10 (witness): the statement evaluated from a reset frame switching
to the screen canvas and drawing with shader 1. -/
theorem set_canvas_resets_pipeline_witness :
    (GfxCtx.set_canvas FrameData.reset CanvasID.Screen false).current_pipeline = ID_NONE ∧
    ∃ fd2 t,
      ShaderCfg.draw (GfxCtx.set_canvas FrameData.reset CanvasID.Screen false)
          1 [] 0 false = some fd2 ∧
      fd2.draw_cmd_queue =
        FrameData.reset.draw_cmd_queue ++
          [DrawCmd.SetCanvas CanvasID.Screen false, DrawCmd.SetShader 1] ++ t :=
  set_canvas_resets_pipeline FrameData.reset CanvasID.Screen false 1 [] 0 false
    (by decide) (by decide)

/-! ### C8: registry id uniqueness -/

/-- Registry invariant: the free stack holds no duplicates and every
index on it points at a cleared slot. -/
def RegInv (s : IDVecSt) : Prop :=
  s.free.Nodup ∧ ∀ i ∈ s.free, s.vec.get? i = some none

/-- The scan rewrites a slot according to its content: a live slot
whose handle is dead becomes `none`, everything else is unchanged. -/
theorem removeUnusedScan_get (v : List (Option Nat)) (dead : List Nat) (base j : Nat) :
    (removeUnusedScan v dead base).1.get? j =
      match v.get? j with
      | some (some h) => if h ∈ dead then some none else some (some h)
      | w => w := by
  induction v generalizing base j with
  | nil => simp [removeUnusedScan]
  | cons a rest ih =>
    cases a with
    | none =>
      cases j with
      | zero => simp [removeUnusedScan]
      | succ j2 =>
        simp only [removeUnusedScan, List.get?_cons_succ]
        exact ih (base + 1) j2
    | some h0 =>
      simp only [removeUnusedScan]
      split
      · next hdead =>
        cases j with
        | zero => simp [hdead]
        | succ j2 => simpa using ih (base + 1) j2
      · next hdead =>
        cases j with
        | zero => simp [hdead]
        | succ j2 => simpa using ih (base + 1) j2

/-- Membership in the collected index list characterized by the slot
contents: index `base + j` is collected exactly when slot `j` holds a
handle with zero strong holders. -/
theorem removeUnusedScan_mem (v : List (Option Nat)) (dead : List Nat) (base x : Nat) :
    x ∈ (removeUnusedScan v dead base).2 ↔
      ∃ j h, x = base + j ∧ v.get? j = some (some h) ∧ h ∈ dead := by
  induction v generalizing base with
  | nil => simp [removeUnusedScan]
  | cons a rest ih =>
    cases a with
    | none =>
      simp only [removeUnusedScan]
      rw [ih (base + 1)]
      constructor
      · rintro ⟨j, h, rfl, hj, hd⟩
        exact ⟨j + 1, h, by omega, by simpa using hj, hd⟩
      · rintro ⟨j, h, hx, hj, hd⟩
        cases j with
        | zero => simp at hj
        | succ j2 => exact ⟨j2, h, by omega, by simpa using hj, hd⟩
    | some h0 =>
      simp only [removeUnusedScan]
      split
      · next hdead =>
        simp only [List.mem_cons]
        rw [ih (base + 1)]
        constructor
        · rintro (rfl | ⟨j, h, rfl, hj, hd⟩)
          · exact ⟨0, h0, by omega, by simp, hdead⟩
          · exact ⟨j + 1, h, by omega, by simpa using hj, hd⟩
        · rintro ⟨j, h, hx, hj, hd⟩
          cases j with
          | zero => exact Or.inl (by omega)
          | succ j2 => exact Or.inr ⟨j2, h, by omega, by simpa using hj, hd⟩
      · next hdead =>
        rw [ih (base + 1)]
        constructor
        · rintro ⟨j, h, rfl, hj, hd⟩
          exact ⟨j + 1, h, by omega, by simpa using hj, hd⟩
        · rintro ⟨j, h, hx, hj, hd⟩
          cases j with
          | zero =>
            simp only [List.get?_cons_zero, Option.some.injEq] at hj
            exact absurd (hj ▸ hd) hdead
          | succ j2 => exact ⟨j2, h, by omega, by simpa using hj, hd⟩

/-- Every collected index is at least the scan's base index. -/
theorem removeUnusedScan_lb (v : List (Option Nat)) (dead : List Nat) (base : Nat) :
    ∀ x ∈ (removeUnusedScan v dead base).2, base ≤ x := by
  intro x hx
  rw [removeUnusedScan_mem] at hx
  obtain ⟨j, h, rfl, _, _⟩ := hx
  omega

/-- The collected index list has no duplicates (it is strictly
increasing). -/
theorem removeUnusedScan_nodup (v : List (Option Nat)) (dead : List Nat) (base : Nat) :
    (removeUnusedScan v dead base).2.Nodup := by
  induction v generalizing base with
  | nil => simp [removeUnusedScan]
  | cons a rest ih =>
    cases a with
    | none =>
      simp only [removeUnusedScan]
      exact ih (base + 1)
    | some h0 =>
      simp only [removeUnusedScan]
      split
      · rw [List.nodup_cons]
        refine ⟨fun hmem => ?_, ih (base + 1)⟩
        have := removeUnusedScan_lb rest dead (base + 1) base hmem
        omega
      · exact ih (base + 1)

/-- A `get?` hit implies the index is within bounds. -/
theorem get?_some_lt {v : List (Option Nat)} {i : Nat} {w : Option Nat}
    (h : v.get? i = some w) : i < v.length := by
  by_contra hlt
  rw [List.get?_eq_none.mpr (by omega)] at h
  exact absurd h (by simp)

/-- `RegInv` is preserved by `IDVec::insert`. -/
theorem RegInv.insert (s : IDVecSt) (h : Nat) (hInv : RegInv s) :
    RegInv (s.insert h).1 := by
  rcases List.eq_nil_or_concat s.free with hnil | ⟨f2, a, hconc⟩
  · constructor
    · simp [IDVecSt.insert, hnil]
    · simp [IDVecSt.insert, hnil]
  · rw [List.concat_eq_append] at hconc
    have hlast : s.free.getLast? = some a := by rw [hconc]; exact List.getLast?_concat f2
    have hdrop : s.free.dropLast = f2 := by rw [hconc]; exact List.dropLast_concat ..
    have hnodup := hInv.1
    rw [hconc, List.nodup_append] at hnodup
    constructor
    · simp only [IDVecSt.insert, hlast]
      rw [hdrop]
      exact hnodup.1
    · intro i hi
      simp only [IDVecSt.insert, hlast] at hi ⊢
      rw [hdrop] at hi
      have hia : i ≠ a := by
        intro hia
        exact (hnodup.2.2 hi (by simp [hia])).elim
      rw [List.get?_set_ne (some h) s.vec (Ne.symm hia)]
      exact hInv.2 i (by rw [hconc]; exact List.mem_append_left _ hi)

/-- `RegInv` is preserved by `IDArenaCell::remove_unused`. -/
theorem RegInv.remove_unused (s : IDVecSt) (dead : List Nat) (hInv : RegInv s) :
    RegInv (s.remove_unused dead).1 := by
  constructor
  · simp only [IDVecSt.remove_unused]
    refine List.Nodup.append hInv.1 (removeUnusedScan_nodup s.vec dead 0) ?_
    intro x hxfree hxscan
    rw [removeUnusedScan_mem] at hxscan
    obtain ⟨j, h, hx, hj, _⟩ := hxscan
    have := hInv.2 x hxfree
    rw [show x = j by omega] at this
    rw [this] at hj
    simp at hj
  · intro i hi
    simp only [IDVecSt.remove_unused] at hi ⊢
    rw [List.mem_append] at hi
    rcases hi with hi | hi
    · rw [removeUnusedScan_get]
      rw [hInv.2 i hi]
    · rw [removeUnusedScan_mem] at hi
      obtain ⟨j, h, hx, hj, hd⟩ := hi
      rw [removeUnusedScan_get, show i = j by omega, hj]
      simp [hd]

/-- `IDVec::insert` stores the handle at the returned id. -/
theorem insert_ret_slot (s : IDVecSt) (h : Nat) (hInv : RegInv s) :
    (s.insert h).1.vec.get? (s.insert h).2 = some (some h) := by
  rcases List.eq_nil_or_concat s.free with hnil | ⟨f2, a, hconc⟩
  · simp only [IDVecSt.insert, hnil]
    exact List.get?_concat_length s.vec (some h)
  · rw [List.concat_eq_append] at hconc
    have hlast : s.free.getLast? = some a := by rw [hconc]; exact List.getLast?_concat f2
    have hmem : a ∈ s.free := by rw [hconc]; simp
    have hslot := hInv.2 a hmem
    have hlt : a < s.vec.length := get?_some_lt hslot
    simp only [IDVecSt.insert, hlast]
    exact List.get?_set_eq_of_lt (some h) hlt

/-- A live slot survives `IDVec::insert`, and the id handed out is a
different one: a free-stack pop lands on a cleared slot and an append
lands past the end. -/
theorem insert_preserves_live (s : IDVecSt) (h i x : Nat) (hInv : RegInv s)
    (hlive : s.vec.get? i = some (some x)) :
    (s.insert h).1.vec.get? i = some (some x) ∧ (s.insert h).2 ≠ i := by
  rcases List.eq_nil_or_concat s.free with hnil | ⟨f2, a, hconc⟩
  · have hlt : i < s.vec.length := get?_some_lt hlive
    constructor
    · simp only [IDVecSt.insert, hnil, List.getLast?_nil]
      rw [List.get?_append hlt]
      exact hlive
    · simp only [IDVecSt.insert, hnil, List.getLast?_nil]
      omega
  · rw [List.concat_eq_append] at hconc
    have hlast : s.free.getLast? = some a := by rw [hconc]; exact List.getLast?_concat f2
    have hmem : a ∈ s.free := by rw [hconc]; simp
    have hslot := hInv.2 a hmem
    have hai : a ≠ i := by
      intro heq
      rw [heq, hlive] at hslot
      simp at hslot
    constructor
    · simp only [IDVecSt.insert, hlast]
      rw [List.get?_set_ne (some h) s.vec hai]
      exact hlive
    · simp only [IDVecSt.insert, hlast]
      exact hai

/-- A live slot whose index is not collected by `remove_unused` keeps
its contents. -/
theorem remove_unused_preserves_live (s : IDVecSt) (dead : List Nat) (i x : Nat)
    (hlive : s.vec.get? i = some (some x))
    (hnr : i ∉ (s.remove_unused dead).2) :
    (s.remove_unused dead).1.vec.get? i = some (some x) := by
  have hxd : x ∉ dead := by
    intro hxd
    refine hnr ?_
    simp only [IDVecSt.remove_unused]
    rw [removeUnusedScan_mem]
    exact ⟨i, x, by omega, hlive, hxd⟩
  simp only [IDVecSt.remove_unused]
  rw [removeUnusedScan_get, hlive]
  simp [hxd]

/-- While a slot is live, no later `insert` of the session hands its id
out again before a `remove_unused` scan has collected that id. -/
theorem live_slot_not_reinserted (ops : List RegOp) (s : IDVecSt) (id x : Nat)
    (hInv : RegInv s) (hlive : s.vec.get? id = some (some x)) :
    ∀ m, (runRegOps s ops).2.get? m = some (RegEvent.inserted id) →
      ∃ k l, k < m ∧ (runRegOps s ops).2.get? k = some (RegEvent.removed l) ∧ id ∈ l := by
  induction ops generalizing s x with
  | nil =>
    intro m hm
    simp [runRegOps] at hm
  | cons op rest ih =>
    intro m hm
    cases op with
    | insert h =>
      obtain ⟨hpres, hne⟩ := insert_preserves_live s h id x hInv hlive
      cases m with
      | zero =>
        simp only [runRegOps, List.get?_cons_zero, Option.some.injEq,
          RegEvent.inserted.injEq] at hm
        exact absurd hm hne
      | succ m2 =>
        simp only [runRegOps, List.get?_cons_succ] at hm
        obtain ⟨k, l, hk, hke, hl⟩ := ih (s.insert h).1 x (RegInv.insert s h hInv) hpres m2 hm
        exact ⟨k + 1, l, by omega, by simpa [runRegOps] using hke, hl⟩
    | removeUnused dead =>
      cases m with
      | zero => simp [runRegOps] at hm
      | succ m2 =>
        by_cases hmem : id ∈ (s.remove_unused dead).2
        · exact ⟨0, (s.remove_unused dead).2, by omega, by simp [runRegOps], hmem⟩
        · have hpres := remove_unused_preserves_live s dead id x hlive hmem
          simp only [runRegOps, List.get?_cons_succ] at hm
          obtain ⟨k, l, hk, hke, hl⟩ :=
            ih (s.remove_unused dead).1 x (RegInv.remove_unused s dead hInv) hpres m2 hm
          exact ⟨k + 1, l, by omega, by simpa [runRegOps] using hke, hl⟩

/-- Generalized uniqueness: from any state satisfying the registry
invariant, two `insert` events returning the same id enclose a
`remove_unused` event that collected that id. -/
theorem insert_unique_aux (ops : List RegOp) (s : IDVecSt) (hInv : RegInv s) :
    ∀ i j id, i < j →
      (runRegOps s ops).2.get? i = some (RegEvent.inserted id) →
      (runRegOps s ops).2.get? j = some (RegEvent.inserted id) →
      ∃ k l, i < k ∧ k < j ∧
        (runRegOps s ops).2.get? k = some (RegEvent.removed l) ∧ id ∈ l := by
  induction ops generalizing s with
  | nil =>
    intro i j id hij hi hj
    simp [runRegOps] at hi
  | cons op rest ih =>
    intro i j id hij hi hj
    cases i with
    | zero =>
      cases j with
      | zero => omega
      | succ j2 =>
        cases op with
        | insert h =>
          simp only [runRegOps, List.get?_cons_zero, Option.some.injEq,
            RegEvent.inserted.injEq] at hi
          simp only [runRegOps, List.get?_cons_succ] at hj
          have hlive : (s.insert h).1.vec.get? id = some (some h) := by
            rw [← hi]
            exact insert_ret_slot s h hInv
          obtain ⟨k, l, hk, hke, hl⟩ :=
            live_slot_not_reinserted rest (s.insert h).1 id h (RegInv.insert s h hInv)
              hlive j2 hj
          exact ⟨k + 1, l, by omega, by omega, by simpa [runRegOps] using hke, hl⟩
        | removeUnused dead =>
          simp [runRegOps] at hi
    | succ i2 =>
      cases j with
      | zero => omega
      | succ j2 =>
        cases op with
        | insert h =>
          simp only [runRegOps, List.get?_cons_succ] at hi hj
          obtain ⟨k, l, hk1, hk2, hke, hl⟩ :=
            ih (s.insert h).1 (RegInv.insert s h hInv) i2 j2 id (by omega) hi hj
          exact ⟨k + 1, l, by omega, by omega, by simpa [runRegOps] using hke, hl⟩
        | removeUnused dead =>
          simp only [runRegOps, List.get?_cons_succ] at hi hj
          obtain ⟨k, l, hk1, hk2, hke, hl⟩ :=
            ih (s.remove_unused dead).1 (RegInv.remove_unused s dead hInv) i2 j2 id
              (by omega) hi hj
          exact ⟨k + 1, l, by omega, by omega, by simpa [runRegOps] using hke, hl⟩

/-- C8: in any registry session, an id returned by `insert` is returned
again by a later `insert` only if a `remove_unused` scan strictly in
between collected that id (its weak reference having zero strong
holders), clearing the slot for reuse — so ids are pairwise distinct
among currently-live entries. -/
theorem insert_ids_unique_until_removed (ops : List RegOp) (i j id : Nat) (hij : i < j)
    (hi : (regEvents ops).get? i = some (RegEvent.inserted id))
    (hj : (regEvents ops).get? j = some (RegEvent.inserted id)) :
    ∃ k l, i < k ∧ k < j ∧
      (regEvents ops).get? k = some (RegEvent.removed l) ∧ id ∈ l :=
  insert_unique_aux ops IDVecSt.empty ⟨List.nodup_nil, by simp [IDVecSt.empty]⟩
    i j id hij hi hj

/-- C8 (witness): in the session `insert 10; remove_unused (10 dead);
insert 11` the two inserts both return id 0, and the theorem produces
the intervening removal of id 0. -/
theorem insert_ids_unique_until_removed_witness :
    (regEvents [RegOp.insert 10, RegOp.removeUnused [10], RegOp.insert 11]).get? 0 =
        some (RegEvent.inserted 0) ∧
    (regEvents [RegOp.insert 10, RegOp.removeUnused [10], RegOp.insert 11]).get? 2 =
        some (RegEvent.inserted 0) ∧
    ∃ k l, 0 < k ∧ k < 2 ∧
      (regEvents [RegOp.insert 10, RegOp.removeUnused [10], RegOp.insert 11]).get? k =
          some (RegEvent.removed l) ∧ 0 ∈ l :=
  ⟨by decide, by decide,
   insert_ids_unique_until_removed [RegOp.insert 10, RegOp.removeUnused [10], RegOp.insert 11]
     0 2 0 (by decide) (by decide) (by decide)⟩

end Isopod









